import Mathlib

/-!
Shallow embedding of the MyDo task-manager core (source: `src/unnamed/part_000`,
second copy, lines 495-1273; the app component `MyDo`, its helpers, the
`usePomodoro` hook and the `AddTaskForm` submit handler).

Modelling conventions:
* Timestamps are integers counting milliseconds (JS `Date.getTime()`); the
  time zone is taken to be UTC, so `toDateString` equality is equality of
  `floor(t / msPerDay)` and an ISO date string `"YYYY-MM-DD"` parses to the
  instant `dayNumber * msPerDay`.
* A calendar date (a task's `due`, which the app stores as an ISO date
  string) is represented by its day number: `Option Int`, `none` when the
  field is empty or absent (falsy in JS).
* `priority` is `Option Priority` (`undefined` in JS is `none`); the code
  reads it through `?? "Low"`.  `labels` is a `List String` (JS `t.labels
  || []` makes a missing field behave as `[]`).  `notes`/`project` are
  strings where `""` plays the role of a missing field, exactly as the JS
  search code treats them (`filter(Boolean)` drops `""`).
* Fresh values produced by `uuidv4()` / `new Date()` inside a mutation are
  passed as explicit parameters (`freshId`, `now`).
-/

namespace MyDo

/-- Priority values, source `PRIORITIES = ["Low", "Med", "High", "Urgent"]`. -/
inductive Priority where
  | low
  | med
  | high
  | urgent
deriving DecidableEq, Repr

/-- Recurrence values, source `RECUR_OPTS = ["none", "daily", "weekly", "monthly"]`. -/
inductive Recur where
  | none
  | daily
  | weekly
  | monthly
deriving DecidableEq, Repr

/-- A task record, fields as produced by `AddTaskForm` / stored in `tasks`. -/
structure Task where
  id : Nat
  title : String
  notes : String
  project : String
  labels : List String
  priority : Option Priority
  due : Option Int
  recur : Recur
  createdAt : Int
  completedAt : Option Int
  archived : Bool
deriving DecidableEq, Repr

/-- Milliseconds per calendar day (JS date arithmetic unit). -/
def msPerDay : Int := 86400000

/-- Day number of an instant: JS `Day(t) = floor(t / msPerDay)`; `Int`
division is Euclidean division, which is floor division for the positive
divisor `msPerDay`. -/
def dayOf (t : Int) : Int := t / msPerDay

/-- Source `todayISO()`: the ISO date string of the current instant,
represented by its day number. -/
def todayISO (now : Int) : Int := dayOf now

/-- Source `isSameDay(a, b)`: both values truthy and their parsed dates fall
on the same calendar day. -/
def isSameDay (a b : Option Int) : Bool :=
  match a, b with
  | some x, some y => x == y
  | _, _ => false

/-- Source `inNextDays(d, n)`: `d` parses to an instant at or after the start
of today and at or before `now + n` days (`lim.setDate(now.getDate() + n)`). -/
def inNextDays (d : Option Int) (n : Int) (now : Int) : Bool :=
  match d with
  | none => false
  | some due =>
      decide (dayOf now * msPerDay ≤ due * msPerDay) &&
      decide (due * msPerDay ≤ now + n * msPerDay)

/-! ## Civil-calendar arithmetic (for the `monthly` recurrence rule)

`daysFromCivil`/`civilFromDays` convert between a proleptic-Gregorian
`(year, month, day)` triple (month 1..12) and a day number with day 0 =
1970-01-01, following the standard era-based algorithm; `addCalendarMonth`
reproduces JS `nd.setMonth(d.getMonth() + 1)`, which per ECMA-262 `MakeDay`
moves to the first of the (normalised) next month and then adds `day - 1`
days, letting an overlong day-of-month spill into the following month. -/

/-- Day number of the civil date `(y, m, d)` (day 0 = 1970-01-01). -/
def daysFromCivil (y m d : Int) : Int :=
  let y' : Int := if m ≤ 2 then y - 1 else y
  let era : Int := Int.fdiv y' 400
  let yoe : Int := y' - era * 400
  let doy : Int := Int.fdiv (153 * (m + (if 2 < m then -3 else 9)) + 2) 5 + d - 1
  let doe : Int := yoe * 365 + Int.fdiv yoe 4 - Int.fdiv yoe 100 + doy
  era * 146097 + doe - 719468

/-- Civil date `(y, m, d)` of a day number (inverse of `daysFromCivil`). -/
def civilFromDays (z : Int) : Int × Int × Int :=
  let z' : Int := z + 719468
  let era : Int := Int.fdiv z' 146097
  let doe : Int := z' - era * 146097
  let yoe : Int :=
    Int.fdiv (doe - Int.fdiv doe 1460 + Int.fdiv doe 36524 - Int.fdiv doe 146096) 365
  let y : Int := yoe + era * 400
  let doy : Int := doe - (365 * yoe + Int.fdiv yoe 4 - Int.fdiv yoe 100)
  let mp : Int := Int.fdiv (5 * doy + 2) 153
  let d : Int := doy - Int.fdiv (153 * mp + 2) 5 + 1
  let m : Int := mp + (if mp < 10 then 3 else -9)
  (if m ≤ 2 then y + 1 else y, m, d)

/-- JS `setMonth(getMonth() + 1)` on a date given as a day number. -/
def addCalendarMonth (z : Int) : Int :=
  match civilFromDays z with
  | (y, m, d) =>
      let m0 : Int := m
      let y' : Int := y + Int.fdiv m0 12
      let m' : Int := Int.emod m0 12 + 1
      daysFromCivil y' m' 1 + (d - 1)

/-- Source `nextRecurringDate(date, recur)` (lines 528-536): advances a date
by the recurrence rule; `null` for any other `recur` value. -/
def nextRecurringDate (date : Int) (recur : Recur) : Option Int :=
  match recur with
  | .daily => some (date + 1)
  | .weekly => some (date + 7)
  | .monthly => some (addCalendarMonth date)
  | .none => Option.none

/-! ## View engine (source `filtered`, lines 658-709, and `counts`, 711-725) -/

/-- View kinds handled by the `switch (view.type)` in `filtered`. -/
inductive ViewType where
  | inbox
  | today
  | upcoming
  | project
  | label
  | completed
  | archive
deriving DecidableEq, Repr

/-- The view selector `{ type, key }`; `key` is `null` except for the
`project`/`label` kinds. -/
structure View where
  type : ViewType
  key : Option String
deriving DecidableEq, Repr

/-- Source `PRIORITIES` list. -/
def PRIORITIES : List String := ["Low", "Med", "High", "Urgent"]

/-- Display name of a priority. -/
def prioName : Priority → String
  | .low => "Low"
  | .med => "Med"
  | .high => "High"
  | .urgent => "Urgent"

/-- Source `pRank(p) = PRIORITIES.indexOf(p ?? "Low")` (line 700). -/
def pRank (p : Option Priority) : Nat :=
  PRIORITIES.indexOf (prioName (p.getD .low))

/-- Sort key of a task: the parsed due instant, `none` (= JS `Infinity`)
when the task has no due date (line 702-703). -/
def dueKey (t : Task) : Option Int := t.due.map (fun d => d * msPerDay)

/-- Strict comparison of due keys where `none` stands for `Infinity`. -/
def dueKeyLt (a b : Option Int) : Bool :=
  match a, b with
  | some x, some y => decide (x < y)
  | some _, none => true
  | none, _ => false

/-- The comparator of lines 701-707, phrased as a total preorder: `taskLe a b`
iff the JS comparator returns a value `≤ 0` on `(a, b)`. -/
def taskLe (a b : Task) : Bool :=
  if dueKey a != dueKey b then dueKeyLt (dueKey a) (dueKey b)
  else if pRank a.priority != pRank b.priority then
    decide (pRank b.priority < pRank a.priority)
  else decide (a.createdAt ≤ b.createdAt)

/-! ### JS string primitives

The JS string methods the core uses (`toLowerCase`, `includes`, `trim`) are
embedded as structural functions over the character list of a string. -/

/-- JS `String.prototype.toLowerCase` (over the app's ASCII field data). -/
def jsToLower (s : String) : String := String.mk (s.data.map Char.toLower)

/-- Whether `pat` occurs at the head of `l`. -/
def charPrefixAt (pat : List Char) (l : List Char) : Bool :=
  match pat, l with
  | [], _ => true
  | _ :: _, [] => false
  | p :: ps, c :: cs => p == c && charPrefixAt ps cs

/-- Whether `pat` occurs as a contiguous run inside `l`. -/
def charIncludes (pat : List Char) : List Char → Bool
  | [] => charPrefixAt pat []
  | c :: cs => charPrefixAt pat (c :: cs) || charIncludes pat cs

/-- JS `s.includes(pat)`: `pat` is a substring of `s`. -/
def jsIncludes (s pat : String) : Bool := charIncludes pat.data s.data

/-- JS `String.prototype.trim`: strip whitespace from both ends. -/
def jsTrim (s : String) : String :=
  String.mk (((s.data.dropWhile Char.isWhitespace).reverse.dropWhile Char.isWhitespace).reverse)

/-- Search text of a task: source
`[t.title, t.notes, t.project, ...(t.labels || [])].filter(Boolean).join(" ")`. -/
def searchText (t : Task) : String :=
  String.intercalate " " (([t.title, t.notes, t.project] ++ t.labels).filter (fun s => s != ""))

/-- Source text filter body (lines 661-668): the lowercased query is a
substring of the lowercased search text (`.toLowerCase().includes(s)`). -/
def matchesQuery (q : String) (t : Task) : Bool :=
  jsIncludes (jsToLower (searchText t)) (jsToLower q)

/-- Pipeline step 1 (line 659): drop archived tasks. -/
def step1 (tasks : List Task) : List Task :=
  tasks.filter (fun t => !t.archived)

/-- Pipeline step 2 (lines 660-669): text filter, applied only when the
query is non-empty (truthy). -/
def step2 (q : String) (list : List Task) : List Task :=
  if q != "" then list.filter (matchesQuery q) else list

/-- The `today` kind predicate (lines 675-680), shared verbatim with
`counts.today` (lines 714-719). -/
def todayPredCode (t : Task) (now : Int) : Bool :=
  t.completedAt.isNone &&
    (isSameDay t.due (some (todayISO now)) ||
      (match t.due with
       | some d => decide (d * msPerDay < now)
       | none => false))

/-- Pipeline step 3 (lines 670-699): the kind filter.  The `archive` branch
restarts from the raw `tasks`, not from `list` (line 695). -/
def step3 (tasks list : List Task) (view : View) (now : Int) : List Task :=
  match view.type with
  | .inbox => list.filter (fun t => t.completedAt.isNone)
  | .today => list.filter (fun t => todayPredCode t now)
  | .upcoming => list.filter (fun t => t.completedAt.isNone && inNextDays t.due 7 now)
  | .project =>
      list.filter (fun t =>
        (match view.key with | some k => t.project == k | none => false) &&
        t.completedAt.isNone)
  | .label =>
      list.filter (fun t =>
        (match view.key with | some k => t.labels.contains k | none => false) &&
        t.completedAt.isNone)
  | .completed => list.filter (fun t => t.completedAt.isSome)
  | .archive => tasks.filter (fun t => t.archived)

/-- Source `filtered` (lines 658-709): archive exclusion, text filter, kind
filter, then the in-place stable sort by the comparator. -/
def filtered (tasks : List Task) (view : View) (q : String) (now : Int) : List Task :=
  (step3 tasks (step2 q (step1 tasks)) view now).mergeSort taskLe

/-- The `counts` record (lines 711-725). -/
structure Counts where
  inbox : Nat
  today : Nat
  upcoming : Nat
  completed : Nat
  archive : Nat
deriving DecidableEq, Repr

/-- Source `counts` (lines 711-725): per-kind cardinalities computed directly
on `tasks`; only the `inbox` entry excludes archived tasks. -/
def counts (tasks : List Task) (now : Int) : Counts where
  inbox := (tasks.filter (fun t => t.completedAt.isNone && !t.archived)).length
  today := (tasks.filter (fun t => todayPredCode t now)).length
  upcoming := (tasks.filter (fun t => t.completedAt.isNone && inNextDays t.due 7 now)).length
  completed := (tasks.filter (fun t => t.completedAt.isSome)).length
  archive := (tasks.filter (fun t => t.archived)).length

/-! ## Mutations (lines 728-765) -/

/-- A draft task as passed to `addTask` by `AddTaskForm`'s `onSubmit`:
every field of a task except `id` and `createdAt`. -/
structure Draft where
  title : String
  notes : String
  project : String
  labels : List String
  priority : Option Priority
  due : Option Int
  recur : Recur
  completedAt : Option Int
  archived : Bool
deriving DecidableEq, Repr

/-- Source `addTask(t)` (lines 728-732): spread the draft, assign a fresh
`id` and `createdAt`, and prepend. -/
def addTask (t : Draft) (freshId : Nat) (now : Int) (prev : List Task) : List Task :=
  { id := freshId, title := t.title, notes := t.notes, project := t.project,
    labels := t.labels, priority := t.priority, due := t.due, recur := t.recur,
    createdAt := now, completedAt := t.completedAt, archived := t.archived } :: prev

/-- Body of the `flatMap` in source `toggleDone(id)` (lines 733-753): a
non-matching task maps to itself; the matching task flips completion, and on
the transition to completed of a task whose `recur` is set and not `"none"`
also emits a sibling copy with fresh `id`/`createdAt`, cleared
`completedAt`, and `due` advanced by `nextRecurringDate` from the original's
due date (or from today when it had none). -/
def toggleTask (i : Nat) (freshId : Nat) (now : Int) (t : Task) : List Task :=
  if t.id != i then [t]
  else
    let completed := t.completedAt.isNone
    let base : Task := { t with completedAt := if completed then some now else Option.none }
    if completed && t.recur != Recur.none then
      let nd := nextRecurringDate (t.due.getD (todayISO now)) t.recur
      let next : Task :=
        { t with id := freshId, createdAt := now, completedAt := Option.none, due := nd }
      [base, next]
    else [base]

/-- Source `toggleDone(id)`: the `flatMap` over `toggleTask`. -/
def toggleDone (i : Nat) (freshId : Nat) (now : Int) (tasks : List Task) : List Task :=
  tasks.flatMap (toggleTask i freshId now)

/-- Source `removeTask(id)` (line 754). -/
def removeTask (i : Nat) (tasks : List Task) : List Task :=
  tasks.filter (fun t => t.id != i)

/-- Source `archiveTask(id)` (line 755). -/
def archiveTask (i : Nat) (tasks : List Task) : List Task :=
  tasks.map (fun t => if t.id == i then { t with archived := true } else t)

/-- A partial field patch, as used by `updateTask`: a `some` entry overrides
the task's field (JS object spread `{ ...t, ...patch }`), including setting a
nullable field back to `null`. -/
structure Patch where
  title : Option String := Option.none
  notes : Option String := Option.none
  project : Option String := Option.none
  labels : Option (List String) := Option.none
  priority : Option (Option Priority) := Option.none
  due : Option (Option Int) := Option.none
  recur : Option Recur := Option.none
  completedAt : Option (Option Int) := Option.none
  archived : Option Bool := Option.none
deriving DecidableEq, Repr

/-- Shallow merge `{ ...t, ...patch }`. -/
def applyPatch (t : Task) (p : Patch) : Task where
  id := t.id
  title := p.title.getD t.title
  notes := p.notes.getD t.notes
  project := p.project.getD t.project
  labels := p.labels.getD t.labels
  priority := p.priority.getD t.priority
  due := p.due.getD t.due
  recur := p.recur.getD t.recur
  createdAt := t.createdAt
  completedAt := p.completedAt.getD t.completedAt
  archived := p.archived.getD t.archived

/-- Source `updateTask(id, patch)` (line 756). -/
def updateTask (i : Nat) (p : Patch) (tasks : List Task) : List Task :=
  tasks.map (fun t => if t.id == i then applyPatch t p else t)

/-- Source `bulkCompleteToday()` (lines 757-765): complete every task that
the `today` predicate selects; no recurrence handling. -/
def bulkCompleteToday (now : Int) (tasks : List Task) : List Task :=
  tasks.map (fun t =>
    if todayPredCode t now then { t with completedAt := some now } else t)

/-! ## Import (source `importJSON`, lines 775-786)

The parsed JSON document is modelled only as far as the code inspects it:
the code checks `Array.isArray(data.tasks)` and `Array.isArray(data)`; an
array of task records is `arr`, any other object is `obj` with its fields,
and every remaining JSON value is `prim`.  Object keys are assumed distinct
(what `JSON.parse` produces). -/

/-- A parsed JSON document, to the depth `importJSON` inspects it. -/
inductive JsonVal where
  | arr (ts : List Task) : JsonVal
  | obj (fields : List (String × JsonVal)) : JsonVal
  | prim : JsonVal

/-- JS property access `data.name`: defined only on objects (`undefined`,
i.e. `none`, on arrays and primitives as far as this code observes). -/
def getProp (data : JsonVal) (name : String) : Option JsonVal :=
  match data with
  | .obj fields => fields.lookup name
  | _ => Option.none

/-- Core of `importJSON` (lines 779-782), on an already-parsed document:
returns the new collection and whether the error alert fired.
`if (Array.isArray(data.tasks)) setTasks(data.tasks); else if
(Array.isArray(data)) setTasks(data); else alert(...)`. -/
def importJSON (data : JsonVal) (prev : List Task) : List Task × Bool :=
  match getProp data "tasks" with
  | some (.arr ts) => (ts, false)
  | _ =>
      match data with
      | .arr ts => (ts, false)
      | _ => (prev, true)

/-- Source `importJSON` including the `JSON.parse` guard (line 783): a file
that fails to parse (`parsed = none`) alerts and keeps the collection. -/
def importJSONFile (parsed : Option JsonVal) (prev : List Task) : List Task × Bool :=
  match parsed with
  | some data => importJSON data prev
  | Option.none => (prev, true)

/-! ## Focus timer (source `usePomodoro`, lines 581-612) -/

/-- Timer phase, source `mode ∈ {"work", "break"}`. -/
inductive Mode where
  | work
  | rest
deriving DecidableEq, Repr

/-- Configured durations, source `dur = { work, break }` (seconds);
`rest` models the `break` field (a reserved word in Lean). -/
structure Durations where
  work : Nat
  rest : Nat
deriving DecidableEq, Repr

/-- Timer state of the `usePomodoro` hook. -/
structure PomoState where
  dur : Durations
  mode : Mode
  secs : Nat
  running : Bool
  boundTaskId : Option Nat
deriving DecidableEq, Repr

/-- The interval body (line 590): `setSecs(s => (s > 0 ? s - 1 : 0))`. -/
def decSecs (s : PomoState) : PomoState :=
  { s with secs := if 0 < s.secs then s.secs - 1 else 0 }

/-- The zero-crossing effect (lines 594-600): when `secs` is 0, flip the
mode and load the new mode's configured duration. -/
def zeroCross (s : PomoState) : PomoState :=
  if s.secs == 0 then
    let next := if s.mode == Mode.work then s.dur.rest else s.dur.work
    { s with mode := if s.mode == Mode.work then Mode.rest else Mode.work,
             secs := next }
  else s

/-- One tick-processing step: the interval exists only while `running`
(line 589); its decrement is followed in the same step by the zero-crossing
effect re-running on the changed `secs`. -/
def tick (s : PomoState) : PomoState :=
  if s.running then zeroCross (decSecs s) else s

/-- Source `reset` (line 602). -/
def pomoReset (s : PomoState) : PomoState :=
  { s with mode := Mode.work, secs := s.dur.work, running := false }

/-! ## Add-task form (source `AddTaskForm`, lines 1034-1093) -/

/-- The labels input parser (line 1057):
`labels ? labels.split(",").map(s => s.trim()).filter(Boolean) : []`. -/
def parseLabels (labels : String) : List String :=
  if labels != "" then
    ((labels.splitOn ",").map jsTrim).filter (fun s => s != "")
  else []

/-- The form's submit handler (lines 1050-1064): rejects when the trimmed
title is empty (`if (!title.trim()) return;`), otherwise builds the draft
and hands it to `addTask` (the `onSubmit` wiring at line 945). -/
def submitAddForm (title notes project labels : String) (priority : Option Priority)
    (due : Option Int) (recur : Recur) (freshId : Nat) (now : Int)
    (prev : List Task) : List Task :=
  if jsTrim title == "" then prev
  else
    addTask
      { title := jsTrim title, notes := notes, project := jsTrim project,
        labels := parseLabels labels, priority := priority, due := due,
        recur := recur, completedAt := Option.none, archived := false }
      freshId now prev

/-! ## Derived predicates used to state the claims -/

/-- Strict order on due keys as the spec describes the sort: ascending by
due date, and a task lacking a due date sorts after every task having one. -/
def dueLtP : Option Int → Option Int → Prop
  | some x, some y => x < y
  | some _, Option.none => True
  | Option.none, _ => False

/-- The display order stated by the spec: ascending due date with `none`
last; ties by descending priority rank (missing priority read as `Low`);
further ties by ascending creation time. -/
def specOrder (a b : Task) : Prop :=
  dueLtP a.due b.due ∨
    (a.due = b.due ∧
      (pRank b.priority < pRank a.priority ∨
        (pRank a.priority = pRank b.priority ∧ a.createdAt ≤ b.createdAt)))

/-- The claim-side reading of the `today` window: the task has a due date
and it is on or before the current day. -/
def dueOnOrBeforeToday (due : Option Int) (now : Int) : Bool :=
  match due with
  | some d => decide (d ≤ dayOf now)
  | Option.none => false

/-- A payload neither shaped as an object with a `tasks` array nor as a
bare array. -/
def malformedImport (data : JsonVal) : Prop :=
  (∀ ts, getProp data "tasks" ≠ some (JsonVal.arr ts)) ∧ (∀ ts, data ≠ JsonVal.arr ts)

/-! ## Concrete sample data for witnesses and counterexamples -/

/-- A plain task used by several witnesses. -/
def sampleTask : Task :=
  { id := 1, title := "alpha", notes := "", project := "", labels := [],
    priority := some Priority.med, due := some 0, recur := Recur.none,
    createdAt := 0, completedAt := Option.none, archived := false }

/-- An uncompleted weekly-recurring task due 2024-01-01. -/
def recTask : Task :=
  { id := 1, title := "water plants", notes := "", project := "", labels := [],
    priority := Option.none, due := some (daysFromCivil 2024 1 1), recur := Recur.weekly,
    createdAt := 0, completedAt := Option.none, archived := false }

/-- An archived, uncompleted task due on day 0. -/
def archivedDueToday : Task :=
  { id := 4, title := "old chore", notes := "", project := "", labels := [],
    priority := Option.none, due := some 0, recur := Recur.none,
    createdAt := 0, completedAt := Option.none, archived := true }

/-- An archived task whose text does not mention `"zzz"` anywhere. -/
def archivedAlpha : Task :=
  { id := 5, title := "alpha", notes := "beta", project := "gamma", labels := ["delta"],
    priority := Option.none, due := Option.none, recur := Recur.none,
    createdAt := 0, completedAt := Option.none, archived := true }

/-- Tasks due yesterday / today / tomorrow / in ten days / never, for a
current instant on day 1 (`now = 86400001`). -/
def dueYesterday : Task :=
  { id := 11, title := "y", notes := "", project := "", labels := [],
    priority := Option.none, due := some 0, recur := Recur.none,
    createdAt := 0, completedAt := Option.none, archived := false }

/-- Task due today (day 1). -/
def dueToday : Task :=
  { id := 12, title := "t", notes := "", project := "", labels := [],
    priority := Option.none, due := some 1, recur := Recur.none,
    createdAt := 0, completedAt := Option.none, archived := false }

/-- Task due tomorrow (day 2). -/
def dueTomorrow : Task :=
  { id := 13, title := "m", notes := "", project := "", labels := [],
    priority := Option.none, due := some 2, recur := Recur.none,
    createdAt := 0, completedAt := Option.none, archived := false }

/-- Task due ten days after day 1. -/
def dueFar : Task :=
  { id := 14, title := "f", notes := "", project := "", labels := [],
    priority := Option.none, due := some 11, recur := Recur.none,
    createdAt := 0, completedAt := Option.none, archived := false }

/-- Task with no due date. -/
def dueNever : Task :=
  { id := 15, title := "n", notes := "", project := "", labels := [],
    priority := Option.none, due := Option.none, recur := Recur.none,
    createdAt := 0, completedAt := Option.none, archived := false }

/-- Tasks surrounding the toggled one in the C10 witness. -/
def beforeTask : Task :=
  { id := 21, title := "first", notes := "", project := "", labels := [],
    priority := Option.none, due := Option.none, recur := Recur.none,
    createdAt := 0, completedAt := Option.none, archived := false }

/-- Non-recurring middle task toggled in the C10 witness. -/
def middleTask : Task :=
  { id := 22, title := "second", notes := "", project := "", labels := [],
    priority := Option.none, due := Option.none, recur := Recur.none,
    createdAt := 0, completedAt := Option.none, archived := false }

/-- Task after the toggled one in the C10 witness. -/
def afterTask : Task :=
  { id := 23, title := "third", notes := "", project := "", labels := [],
    priority := Option.none, due := Option.none, recur := Recur.none,
    createdAt := 0, completedAt := Option.none, archived := false }

/-! ## Helper lemmas -/

/-- A `flatMap` whose body returns the singleton of its argument on every
element of the list is the identity. -/
theorem flatMap_eq_self_of_singleton {α : Type} {l : List α} {f : α → List α}
    (h : ∀ a ∈ l, f a = [a]) : l.flatMap f = l := by
  induction l with
  | nil => rfl
  | cons x xs ih =>
      rw [List.flatMap_cons, h x (by simp), ih (fun a ha => h a (by simp [ha]))]
      rfl

/-- A `map` whose body fixes every element of the list is the identity. -/
theorem map_eq_self_of_fix {α : Type} {l : List α} {f : α → α}
    (h : ∀ a ∈ l, f a = a) : l.map f = l := by
  induction l with
  | nil => rfl
  | cons x xs ih =>
      rw [List.map_cons, h x (by simp), ih (fun a ha => h a (by simp [ha]))]

/-- A task whose id differs from the toggled one maps to itself. -/
theorem toggleTask_miss {i : Nat} {t : Task} (freshId : Nat) (now : Int)
    (h : t.id ≠ i) : toggleTask i freshId now t = [t] := by
  have hb : (t.id != i) = true := by simpa using h
  simp [toggleTask, hb]

/-- `toggleDone`'s `flatMap` fixes a list of tasks none of which match. -/
theorem flatMap_toggleTask_self {i : Nat} {l : List Task} (freshId : Nat) (now : Int)
    (h : ∀ u ∈ l, u.id ≠ i) : l.flatMap (toggleTask i freshId now) = l :=
  flatMap_eq_self_of_singleton (fun u hu => toggleTask_miss freshId now (h u hu))

/-- A due day's midnight either falls on the current day or lies strictly
before the current instant exactly when the due day is on or before today. -/
theorem due_midnight_lt_now_iff (d now : Int) :
    (d = dayOf now ∨ d * msPerDay < now) ↔ d ≤ dayOf now := by
  simp only [dayOf, msPerDay]
  omega

/-- The coded `today` predicate conjoined with the archive exclusion is the
claim's predicate: uncompleted, non-archived, due on or before today. -/
theorem todayPred_characterization (t : Task) (now : Int) :
    (todayPredCode t now && !t.archived) =
      (!t.archived && (t.completedAt.isNone && dueOnOrBeforeToday t.due now)) := by
  rcases hd : t.due with _ | d <;>
    cases harch : t.archived <;>
    cases hcomp : t.completedAt.isNone <;>
    simp [todayPredCode, dueOnOrBeforeToday, isSameDay, todayISO, hd, harch, hcomp]
  by_cases hle : d ≤ dayOf now
  · rcases (due_midnight_lt_now_iff d now).mpr hle with h | h
    · simp [h, hle]
    · simp [h, hle]
  · have h1 : d ≠ dayOf now := fun hh => hle (le_of_eq hh)
    have h2 : ¬ d * msPerDay < now :=
      fun hh => hle ((due_midnight_lt_now_iff d now).mp (Or.inr hh))
    simp [h1, h2, hle]

/-- A filtered length splits into the summands rejected and accepted by a
second Boolean test. -/
theorem length_filter_split {α : Type} (p b : α → Bool) (l : List α) :
    (l.filter p).length =
      (l.filter (fun x => p x && !b x)).length +
        (l.filter (fun x => b x && p x)).length := by
  induction l with
  | nil => rfl
  | cons x xs ih =>
      cases hp : p x <;> cases hb : b x <;> simp [hp, hb, ih] <;> omega

/-- The priority/creation tail of the comparator, phrased as the spec does. -/
theorem tailLe_iff (a b : Task) :
    ((if pRank a.priority != pRank b.priority then
        decide (pRank b.priority < pRank a.priority)
      else decide (a.createdAt ≤ b.createdAt)) = true) ↔
      (pRank b.priority < pRank a.priority ∨
        (pRank a.priority = pRank b.priority ∧ a.createdAt ≤ b.createdAt)) := by
  by_cases hp : pRank a.priority = pRank b.priority
  · simp [hp]
  · have hb : (pRank a.priority != pRank b.priority) = true := by simpa using hp
    simp [hb, hp]

/-- The code's comparator-derived order coincides with the spec's ordering
description. -/
theorem taskLe_iff_specOrder (a b : Task) : taskLe a b = true ↔ specOrder a b := by
  unfold taskLe specOrder
  rcases ha : a.due with _ | x <;> rcases hb : b.due with _ | y
  · have hk : (dueKey a != dueKey b) = false := by simp [dueKey, ha, hb]
    rw [hk]
    simp only [Bool.false_eq_true, if_false]
    rw [tailLe_iff]
    simp [dueLtP, ha, hb]
  · have hk : (dueKey a != dueKey b) = true := by simp [dueKey, ha, hb]
    rw [hk]
    simp [dueKey, dueKeyLt, dueLtP, ha, hb]
  · have hk : (dueKey a != dueKey b) = true := by simp [dueKey, ha, hb]
    rw [hk]
    simp [dueKey, dueKeyLt, dueLtP, ha, hb]
  · by_cases hxy : x = y
    · have hk : (dueKey a != dueKey b) = false := by simp [dueKey, ha, hb, hxy]
      rw [hk]
      simp only [Bool.false_eq_true, if_false]
      rw [tailLe_iff]
      simp [dueLtP, ha, hb, hxy]
    · have hk : (dueKey a != dueKey b) = true := by
        have : x * msPerDay ≠ y * msPerDay := by simp only [msPerDay]; omega
        simp [dueKey, ha, hb, this]
      rw [hk]
      have hlt : dueKeyLt (dueKey a) (dueKey b) = decide (x < y) := by
        have : (x * msPerDay < y * msPerDay) ↔ (x < y) := by
          simp only [msPerDay]
          omega
        simp [dueKey, dueKeyLt, ha, hb, this]
      rw [hlt]
      simp [dueLtP, ha, hb, hxy]

/-- The comparator order is total. -/
theorem taskLe_total (a b : Task) : taskLe a b || taskLe b a := by
  rw [Bool.or_eq_true, taskLe_iff_specOrder, taskLe_iff_specOrder]
  unfold specOrder
  rcases ha : a.due with _ | x <;> rcases hb : b.due with _ | y <;>
    simp [dueLtP, ha, hb] <;> omega

/-- The comparator order is transitive. -/
theorem taskLe_trans (a b c : Task) : taskLe a b → taskLe b c → taskLe a c := by
  simp only [taskLe_iff_specOrder]
  unfold specOrder
  rcases ha : a.due with _ | x <;> rcases hb : b.due with _ | y <;>
    rcases hc : c.due with _ | z <;> simp [dueLtP, ha, hb, hc] <;> omega

/-! ## Claim theorems -/

/-- C1: toggling an uncompleted task with a non-`none` recurrence stamps its
`completedAt` with the current time and inserts exactly one sibling copy
(fresh id and creation time, `completedAt = null`, `due` advanced by the
recurrence rule from the task's due date, or from today when it had none);
the sibling's id differs from the original's and the weekly rule advances a
date by 7 days. -/
theorem C1_toggle_recurring_spawns_sibling (l₁ l₂ : List Task) (t : Task)
    (freshId : Nat) (now : Int)
    (hothers : ∀ u ∈ l₁ ++ l₂, u.id ≠ t.id)
    (hunc : t.completedAt = Option.none)
    (hrec : t.recur ≠ Recur.none)
    (hfresh : freshId ≠ t.id) :
    toggleDone t.id freshId now (l₁ ++ t :: l₂) =
      l₁ ++ { t with completedAt := some now } ::
        { t with id := freshId, createdAt := now, completedAt := Option.none,
                 due := nextRecurringDate (t.due.getD (todayISO now)) t.recur } :: l₂ ∧
    (toggleDone t.id freshId now (l₁ ++ t :: l₂)).length = (l₁ ++ t :: l₂).length + 1 ∧
    ({ t with id := freshId, createdAt := now, completedAt := Option.none,
              due := nextRecurringDate (t.due.getD (todayISO now)) t.recur } : Task).id ≠ t.id ∧
    (∀ d : Int, nextRecurringDate d Recur.weekly = some (d + 7)) := by
  have h1 : ∀ u ∈ l₁, u.id ≠ t.id := fun u hu => hothers u (List.mem_append_left _ hu)
  have h2 : ∀ u ∈ l₂, u.id ≠ t.id := fun u hu => hothers u (List.mem_append_right _ hu)
  have hhit : toggleTask t.id freshId now t =
      [{ t with completedAt := some now },
       { t with id := freshId, createdAt := now, completedAt := Option.none,
                due := nextRecurringDate (t.due.getD (todayISO now)) t.recur }] := by
    have hb : (t.recur != Recur.none) = true := by simpa using hrec
    simp [toggleTask, hunc, hb]
  have hdec : toggleDone t.id freshId now (l₁ ++ t :: l₂) =
      l₁ ++ { t with completedAt := some now } ::
        { t with id := freshId, createdAt := now, completedAt := Option.none,
                 due := nextRecurringDate (t.due.getD (todayISO now)) t.recur } :: l₂ := by
    unfold toggleDone
    rw [List.flatMap_append, List.flatMap_cons, flatMap_toggleTask_self freshId now h1,
        flatMap_toggleTask_self freshId now h2, hhit]
    simp
  refine ⟨hdec, ?_, by simpa using hfresh, fun d => rfl⟩
  rw [hdec]
  simp only [List.length_append, List.length_cons]
  omega

/-- C1 witness: completing a weekly task due 2024-01-01 spawns one sibling
due 2024-01-08 with a distinct id. -/
theorem C1_toggle_recurring_spawns_sibling_witness :
    toggleDone recTask.id 2 86400000 [recTask] =
      [{ recTask with completedAt := some 86400000 },
       { recTask with id := 2, createdAt := 86400000,
                      due := some (daysFromCivil 2024 1 1 + 7) }] ∧
    daysFromCivil 2024 1 8 = daysFromCivil 2024 1 1 + 7 := by
  constructor
  · have h := (C1_toggle_recurring_spawns_sibling [] [] recTask 2 86400000
      (by simp) rfl (by decide) (by decide)).1
    exact h.trans (by decide)
  · decide

/-- C10: toggling an id carried by exactly one task rewrites that task in
place and leaves every other task unchanged in value and position; when the
toggle completes a recurring task, the spawned sibling sits immediately
after the completed original. -/
theorem C10_toggle_frame (l₁ l₂ : List Task) (t : Task) (freshId : Nat) (now : Int)
    (hothers : ∀ u ∈ l₁ ++ l₂, u.id ≠ t.id) :
    (¬ (t.completedAt = Option.none ∧ t.recur ≠ Recur.none) →
       toggleDone t.id freshId now (l₁ ++ t :: l₂) =
         l₁ ++ { t with completedAt :=
                   if t.completedAt.isNone then some now else Option.none } :: l₂) ∧
    ((t.completedAt = Option.none ∧ t.recur ≠ Recur.none) →
       toggleDone t.id freshId now (l₁ ++ t :: l₂) =
         l₁ ++ { t with completedAt := some now } ::
           { t with id := freshId, createdAt := now, completedAt := Option.none,
                    due := nextRecurringDate (t.due.getD (todayISO now)) t.recur } :: l₂) := by
  have h1 : ∀ u ∈ l₁, u.id ≠ t.id := fun u hu => hothers u (List.mem_append_left _ hu)
  have h2 : ∀ u ∈ l₂, u.id ≠ t.id := fun u hu => hothers u (List.mem_append_right _ hu)
  have hdec : ∀ mid : List Task, toggleTask t.id freshId now t = mid →
      toggleDone t.id freshId now (l₁ ++ t :: l₂) = l₁ ++ mid ++ l₂ := by
    intro mid hmid
    unfold toggleDone
    rw [List.flatMap_append, List.flatMap_cons, flatMap_toggleTask_self freshId now h1,
        flatMap_toggleTask_self freshId now h2, hmid]
    exact (List.append_assoc _ _ _).symm
  constructor
  · intro hnot
    have hb : (t.completedAt.isNone && (t.recur != Recur.none)) = false := by
      rcases hc : t.completedAt with _ | c
      · have : t.recur = Recur.none := by
          by_contra hr
          exact hnot ⟨hc, hr⟩
        simp [this]
      · simp [hc]
    have hmid : toggleTask t.id freshId now t =
        [{ t with completedAt := if t.completedAt.isNone then some now else Option.none }] := by
      simp [toggleTask, hb]
    have := hdec _ hmid
    simpa using this
  · rintro ⟨hunc, hrec⟩
    have hb : (t.recur != Recur.none) = true := by simpa using hrec
    have hmid : toggleTask t.id freshId now t =
        [{ t with completedAt := some now },
         { t with id := freshId, createdAt := now, completedAt := Option.none,
                  due := nextRecurringDate (t.due.getD (todayISO now)) t.recur }] := by
      simp [toggleTask, hunc, hb]
    have := hdec _ hmid
    simpa using this

/-- C10 witness: toggling the middle, non-recurring task of a concrete
three-task collection completes it in place and touches nothing else. -/
theorem C10_toggle_frame_witness :
    toggleDone middleTask.id 99 5 [beforeTask, middleTask, afterTask] =
      [beforeTask, { middleTask with completedAt := some 5 }, afterTask] := by
  have h := (C10_toggle_frame [beforeTask] [afterTask] middleTask 99 5 (by decide)).1
    (by decide)
  exact h.trans (by decide)

/-- C4: with an empty search query the today view is, up to the display
sort, exactly the non-archived uncompleted tasks whose due date is on or
before today; on the concrete five-task example (due yesterday / today /
tomorrow / in ten days / never, current instant on day 1) it returns
exactly the yesterday and today tasks. -/
theorem C4_today_view (tasks : List Task) (now : Int) :
    (filtered tasks ⟨ViewType.today, Option.none⟩ "" now).Perm
      (tasks.filter (fun t => !t.archived &&
        (t.completedAt.isNone && dueOnOrBeforeToday t.due now))) ∧
    (filtered [dueYesterday, dueToday, dueTomorrow, dueFar, dueNever]
        ⟨ViewType.today, Option.none⟩ "" 86400001).Perm [dueYesterday, dueToday] := by
  constructor
  · have hperm := List.mergeSort_perm
      (step3 tasks (step2 "" (step1 tasks)) ⟨ViewType.today, Option.none⟩ now) taskLe
    refine List.Perm.trans hperm ?_
    have heq : step3 tasks (step2 "" (step1 tasks)) ⟨ViewType.today, Option.none⟩ now =
        tasks.filter (fun t => !t.archived &&
          (t.completedAt.isNone && dueOnOrBeforeToday t.due now)) := by
      have h2 : step2 "" (step1 tasks) = step1 tasks := rfl
      rw [h2]
      show (tasks.filter (fun t => !t.archived)).filter (fun t => todayPredCode t now) = _
      rw [List.filter_filter]
      exact List.filter_congr (fun t ht => todayPred_characterization t now)
    exact heq ▸ List.Perm.refl _
  · have hperm := List.mergeSort_perm
      (step3 [dueYesterday, dueToday, dueTomorrow, dueFar, dueNever]
        (step2 "" (step1 [dueYesterday, dueToday, dueTomorrow, dueFar, dueNever]))
        ⟨ViewType.today, Option.none⟩ 86400001) taskLe
    refine List.Perm.trans hperm ?_
    have heq : step3 [dueYesterday, dueToday, dueTomorrow, dueFar, dueNever]
        (step2 "" (step1 [dueYesterday, dueToday, dueTomorrow, dueFar, dueNever]))
        ⟨ViewType.today, Option.none⟩ 86400001 = [dueYesterday, dueToday] := by decide
    exact heq ▸ List.Perm.refl _

/-- C5 counterexample: for a single archived, uncompleted task due today,
the `today` badge counts 1 while the pipeline's today view is empty, so the
counts aggregate differs from the kind-filtered cardinalities. -/
theorem C5_counts_counterexample :
    (counts [archivedDueToday] 0).today = 1 ∧
    (filtered [archivedDueToday] ⟨ViewType.today, Option.none⟩ "" 0).length = 0 := by
  constructor
  · decide
  · simp only [filtered, List.length_mergeSort]
    decide

/-- C5 amended: the `inbox` and `archive` counts equal the pipeline
cardinalities, but `today`, `upcoming` and `completed` are computed on the
raw collection without the archive-exclusion step: each equals the pipeline
cardinality plus the number of archived tasks satisfying the same kind
predicate. -/
theorem C5_counts_amended (tasks : List Task) (now : Int) :
    (counts tasks now).inbox =
      (filtered tasks ⟨ViewType.inbox, Option.none⟩ "" now).length ∧
    (counts tasks now).archive =
      (filtered tasks ⟨ViewType.archive, Option.none⟩ "" now).length ∧
    (counts tasks now).today =
      (filtered tasks ⟨ViewType.today, Option.none⟩ "" now).length +
        (tasks.filter (fun t => t.archived && todayPredCode t now)).length ∧
    (counts tasks now).upcoming =
      (filtered tasks ⟨ViewType.upcoming, Option.none⟩ "" now).length +
        (tasks.filter (fun t =>
          t.archived && (t.completedAt.isNone && inNextDays t.due 7 now))).length ∧
    (counts tasks now).completed =
      (filtered tasks ⟨ViewType.completed, Option.none⟩ "" now).length +
        (tasks.filter (fun t => t.archived && t.completedAt.isSome)).length := by
  have h2 : ∀ l : List Task, step2 "" l = l := fun l => rfl
  refine ⟨?_, ?_, ?_, ?_, ?_⟩
  · simp only [counts, filtered, List.length_mergeSort, step3, h2, step1,
      List.filter_filter]
  · simp only [counts, filtered, List.length_mergeSort, step3]
  · simp only [counts, filtered, List.length_mergeSort, step3, h2, step1,
      List.filter_filter]
    exact length_filter_split (fun t => todayPredCode t now) (fun t => t.archived) tasks
  · simp only [counts, filtered, List.length_mergeSort, step3, h2, step1,
      List.filter_filter]
    exact length_filter_split (fun t => t.completedAt.isNone && inNextDays t.due 7 now)
      (fun t => t.archived) tasks
  · simp only [counts, filtered, List.length_mergeSort, step3, h2, step1,
      List.filter_filter]
    exact length_filter_split (fun t => t.completedAt.isSome) (fun t => t.archived) tasks

/-- C6 counterexample: with the non-empty query `"zzz"`, an archived task
whose search text does not contain the query still appears in the archive
view, refuting the claim that it is absent. -/
theorem C6_archive_counterexample :
    archivedAlpha ∈ filtered [archivedAlpha] ⟨ViewType.archive, Option.none⟩ "zzz" 0 ∧
    matchesQuery "zzz" archivedAlpha = false := by
  constructor
  · simp only [filtered]
    exact List.mem_mergeSort.mpr (by decide)
  · decide

/-- C6 amended: the archive view's kind filter restarts from the raw task
list, so the view ignores the text filter entirely: for any query it equals
the sorted list of all archived tasks, and membership in it is exactly
being an archived member of the collection. -/
theorem C6_archive_ignores_query (tasks : List Task) (k : Option String)
    (q : String) (now : Int) :
    filtered tasks ⟨ViewType.archive, k⟩ q now =
      (tasks.filter (fun t => t.archived)).mergeSort taskLe ∧
    filtered tasks ⟨ViewType.archive, k⟩ q now =
      filtered tasks ⟨ViewType.archive, k⟩ "" now ∧
    ∀ t, t ∈ filtered tasks ⟨ViewType.archive, k⟩ q now ↔ t ∈ tasks ∧ t.archived = true := by
  refine ⟨rfl, rfl, fun t => ?_⟩
  simp only [filtered, step3, List.mem_mergeSort, List.mem_filter]

/-- C3: every list the view pipeline produces is sorted as the spec states:
ascending by due date with missing due dates last, ties by descending
priority rank (missing priority read as `Low`), and remaining ties by
ascending creation time. -/
theorem C3_view_output_sorted (tasks : List Task) (view : View) (q : String) (now : Int) :
    (filtered tasks view q now).Pairwise specOrder := by
  have hs := List.sorted_mergeSort taskLe_trans taskLe_total
    (step3 tasks (step2 q (step1 tasks)) view now)
  simp only [filtered]
  exact List.Pairwise.imp (fun hab => (taskLe_iff_specOrder _ _).mp hab) hs

/-- C2: in a running timer with `secondsRemaining = 1`, for any configured
durations, one tick flips `work` to `break` (resp. `break` to `work`) and
loads the new mode's configured duration within the same tick-processing
step, leaving `running` true. -/
theorem C2_tick_zero_crossing (s : PomoState)
    (hrun : s.running = true) (hsecs : s.secs = 1) :
    (s.mode = Mode.work → tick s = { s with mode := Mode.rest, secs := s.dur.rest }) ∧
    (s.mode = Mode.rest → tick s = { s with mode := Mode.work, secs := s.dur.work }) ∧
    (tick s).running = true := by
  obtain ⟨dur, mode, secs, running, bound⟩ := s
  simp only [PomoState.mk.injEq] at *
  subst hrun hsecs
  cases mode <;> simp [tick, decSecs, zeroCross]

/-- C2 witness: a concrete running work-phase timer at one remaining second. -/
theorem C2_tick_zero_crossing_witness :
    tick ⟨⟨1500, 300⟩, Mode.work, 1, true, Option.none⟩ =
      ⟨⟨1500, 300⟩, Mode.rest, 300, true, Option.none⟩ :=
  (C2_tick_zero_crossing ⟨⟨1500, 300⟩, Mode.work, 1, true, Option.none⟩ rfl rfl).1 rfl

/-- C7: submitting the add form with a title that trims to the empty string
leaves the task collection unchanged. -/
theorem C7_empty_title_add_noop (title notes project labels : String)
    (priority : Option Priority) (due : Option Int) (recur : Recur)
    (freshId : Nat) (now : Int) (prev : List Task)
    (h : jsTrim title = "") :
    submitAddForm title notes project labels priority due recur freshId now prev = prev := by
  simp [submitAddForm, h]

/-- C7 witness: a whitespace-only title is rejected on a concrete collection. -/
theorem C7_empty_title_add_noop_witness :
    jsTrim "   " = "" ∧
    submitAddForm "   " "note" "proj" "a,b" (some Priority.med) Option.none
      Recur.none 7 0 [sampleTask] = [sampleTask] :=
  ⟨by decide,
   C7_empty_title_add_noop "   " "note" "proj" "a,b" (some Priority.med) Option.none
     Recur.none 7 0 [sampleTask] (by decide)⟩

/-- C8: importing replaces the whole collection when the payload is an
object carrying a `tasks` array or a bare array, and any other payload
signals the error alert and leaves the collection exactly unchanged. -/
theorem C8_import_replaces_or_rejects (prev : List Task) (data : JsonVal) :
    (∀ ts, getProp data "tasks" = some (JsonVal.arr ts) → importJSON data prev = (ts, false)) ∧
    (∀ ts, data = JsonVal.arr ts → importJSON data prev = (ts, false)) ∧
    (malformedImport data → importJSON data prev = (prev, true)) := by
  refine ⟨?_, ?_, ?_⟩
  · intro ts h
    simp [importJSON, h]
  · intro ts h
    subst h
    simp [importJSON, getProp]
  · rintro ⟨h1, h2⟩
    unfold importJSON
    cases hg : getProp data "tasks" with
    | none =>
        cases data with
        | arr ts => exact absurd rfl (h2 ts)
        | obj fs => rfl
        | prim => rfl
    | some v =>
        cases v with
        | arr ts => exact absurd hg (h1 ts)
        | obj fs =>
            cases data with
            | arr ts => exact absurd rfl (h2 ts)
            | obj fs2 => rfl
            | prim => rfl
        | prim =>
            cases data with
            | arr ts => exact absurd rfl (h2 ts)
            | obj fs2 => rfl
            | prim => rfl

/-- C8 witness: the payload `{"foo": 1}` is rejected and a concrete
collection is kept. -/
theorem C8_import_replaces_or_rejects_witness :
    importJSON (JsonVal.obj [("foo", JsonVal.prim)]) [sampleTask] = ([sampleTask], true) := by
  apply (C8_import_replaces_or_rejects [sampleTask] (JsonVal.obj [("foo", JsonVal.prim)])).2.2
  constructor
  · intro ts hts
    cases (show getProp (JsonVal.obj [("foo", JsonVal.prim)]) "tasks" = Option.none
      from rfl).symm.trans hts
  · intro ts hts
    cases hts

/-- C9: `toggleDone`, `removeTask`, `archiveTask` and `updateTask` applied
to an id no task carries leave the collection exactly unchanged. -/
theorem C9_unknown_id_noops (i freshId : Nat) (now : Int) (p : Patch) (tasks : List Task)
    (h : ∀ t ∈ tasks, t.id ≠ i) :
    toggleDone i freshId now tasks = tasks ∧
    removeTask i tasks = tasks ∧
    archiveTask i tasks = tasks ∧
    updateTask i p tasks = tasks := by
  refine ⟨?_, ?_, ?_, ?_⟩
  · exact flatMap_toggleTask_self freshId now h
  · exact List.filter_eq_self.mpr (fun t ht => by simpa using h t ht)
  · exact map_eq_self_of_fix (fun t ht => by
      have hb : (t.id == i) = false := by simpa using h t ht
      simp [archiveTask, hb])
  · exact map_eq_self_of_fix (fun t ht => by
      have hb : (t.id == i) = false := by simpa using h t ht
      simp [hb])

/-- C9 witness: a concrete singleton collection and an absent id. -/
theorem C9_unknown_id_noops_witness :
    toggleDone 2 7 0 [sampleTask] = [sampleTask] ∧
    removeTask 2 [sampleTask] = [sampleTask] ∧
    archiveTask 2 [sampleTask] = [sampleTask] ∧
    updateTask 2 {} [sampleTask] = [sampleTask] :=
  C9_unknown_id_noops 2 7 0 {} [sampleTask] (by decide)

end MyDo
